import Mathlib

/-!
Verification of the PlaylistDownloader repository.

This file shallowly embeds the in-repo logic of the downloader
(`downloader/config.py`, `downloader/validators.py`,
`downloader/youtube_service.py`, `main.py`) and proves the frozen claims
about it.  External collaborators (the yt-dlp extraction library, the
ffmpeg binary, the real filesystem) are modelled as explicit inputs: an
environment record carries the outcome of each external call (whether
ffmpeg is on the PATH, the metadata-fetch outcome, the trace of progress
events delivered by the library, whether the library raised), and the
embedded functions are deterministic over those inputs, exactly mirroring
the branching of the Python source.
-/

/-! ## Python value fragments

`youtube_service.download` inspects the metadata dict returned by the
extraction library only through Python truthiness tests (`if not info`,
`info.get("entries") or []`, `[e for e in entries if e]`).  We embed the
fragment of Python values these tests can see: a playlist entry is either
`None` or a dict with some number of keys (truthy iff non-empty). -/

inductive PyVal
  | vNone
  | vDict (size : Nat)
deriving DecidableEq

/-- Python truthiness of an entry value: `None` and the empty dict are falsy. -/
def PyVal.truthy : PyVal → Bool
  | .vNone => false
  | .vDict n => n != 0

/-- Value of the `entries` key of an info dict: the key may be absent,
may map to `None`, or may map to a list of entries. -/
inductive EntriesVal
  | absent
  | null
  | list (l : List PyVal)
deriving DecidableEq

/-- The metadata dict returned by `ydl.extract_info` as far as `download`
inspects it: the `entries` key, plus the number of other keys present
(`title`, `id`, ...) which only matters for the `if not info` truthiness
test. -/
structure InfoDict where
  entries : EntriesVal
  extraKeys : Nat
deriving DecidableEq

/-- Python truthiness of the info dict: truthy iff it has at least one key. -/
def InfoDict.truthy (d : InfoDict) : Bool :=
  d.entries != EntriesVal.absent || d.extraKeys != 0

/-- `info.get("entries") or []` (youtube_service.py line 148): an absent key,
a `None` value and an empty list all collapse to `[]`. -/
def InfoDict.getEntries (d : InfoDict) : List PyVal :=
  match d.entries with
  | .absent => []
  | .null => []
  | .list l => l

/-! ## Configuration constants (`downloader/config.py`) -/

def OUTPUT_TEMPLATE : String := "%(playlist_title)s/%(title)s.%(ext)s"

def SINGLE_VIDEO_TEMPLATE : String := "%(title)s.%(ext)s"

def OUTPUT_TEMPLATE_WAV : String := "%(playlist_title)s/%(title)s.wav"

def SINGLE_VIDEO_TEMPLATE_WAV : String := "%(title)s.wav"

def FFMPEG_EXTRACT_AUDIO : String := "wav"

/-! ## Download service (`downloader/youtube_service.py`) -/

/-- The message of the `RuntimeError` raised by
`YouTubeDownloadService._check_ffmpeg` (lines 48-55). -/
def FFMPEG_ERROR_MSG : String :=
  "FFmpeg is not installed or not in PATH. Audio extraction to WAV requires FFmpeg. Install: macOS: brew install ffmpeg | Ubuntu: sudo apt install ffmpeg"

/-- `_check_ffmpeg` (lines 48-55): raises `RuntimeError` iff `shutil.which`
cannot find ffmpeg; `present` is the outcome of that PATH lookup. -/
def check_ffmpeg (present : Bool) : Except String Unit :=
  if present then Except.ok () else Except.error FFMPEG_ERROR_MSG

/-- A post-processor directive in the yt-dlp options dict. -/
structure PostProcessor where
  key : String
  preferredcodec : String
deriving DecidableEq

/-- The yt-dlp options dict built by `_build_opts` (lines 57-88).  The
`postprocessors` / `postprocessor_args` keys, absent from the dict in video
mode, are modelled as empty lists. -/
structure YdlOpts where
  format : String
  outtmpl : String
  ignoreerrors : Bool
  no_warnings : Bool
  quiet : Bool
  extract_flat : Bool
  postprocessors : List PostProcessor
  postprocessor_args : List (String × List String)
deriving DecidableEq

/-- `str(self._output_dir / outtmpl)`: joining the base directory with a
relative template (the templates all start with `%`, never absolute). -/
def pathJoin (dir tmpl : String) : String := dir ++ "/" ++ tmpl

/-- `_build_opts` (lines 57-88), as a function of the two service fields it
reads (`_output_dir`, `_download_video`) and its `is_playlist` argument. -/
def build_opts (output_dir : String) (download_video : Bool) (is_playlist : Bool) : YdlOpts :=
  let outtmpl :=
    if download_video then
      if is_playlist then OUTPUT_TEMPLATE else SINGLE_VIDEO_TEMPLATE
    else
      if is_playlist then OUTPUT_TEMPLATE_WAV else SINGLE_VIDEO_TEMPLATE_WAV
  { format := if !download_video then "bestaudio/best" else "bestvideo+bestaudio/best"
    outtmpl := pathJoin output_dir outtmpl
    ignoreerrors := true
    no_warnings := false
    quiet := false
    extract_flat := false
    postprocessors :=
      if !download_video then
        [{ key := "FFmpegExtractAudio", preferredcodec := FFMPEG_EXTRACT_AUDIO }]
      else []
    postprocessor_args :=
      if !download_video then
        [("extractaudio+ffmpeg", ["-ar", "44100", "-ac", "2", "-acodec", "pcm_s16le"])]
      else [] }

/-- `get_playlist_info` (lines 105-129) as a function of the extraction
outcome: the info dict on success, and on any `DownloadError` or other
exception the error is logged and `None` is returned — errors are never
propagated. -/
def get_playlist_info (outcome : Except String InfoDict) : Option InfoDict :=
  match outcome with
  | Except.ok info => some info
  | Except.error _ => none

/-- Item-count derivation in `download` (lines 148-153): zero or absent
entries count as 1 item; otherwise falsy entries are filtered out and the
remaining entries are counted.  The count is a Python `int`, embedded as
`Int` (the failure count derived from it can go negative). -/
def deriveTotal (info : InfoDict) : Int :=
  let entries := info.getEntries
  if entries.isEmpty then 1
  else ((entries.filter PyVal.truthy).length : Int)

/-- The mutable counters closed over by the `progress_hook` closure
(lines 159-171): `success_count[0]` and `current[0]`. -/
structure HookState where
  success : Int
  current : Int
deriving DecidableEq

/-- One invocation of the `progress_hook` closure (lines 162-171), acting on
the closed-over counters; `status` is `d.get("status", "")`. -/
def stepHook (st : HookState) (status : String) : HookState :=
  let success := if status == "finished" then st.success + 1 else st.success
  let current :=
    if status == "downloading" then success + 1
    else if status == "finished" then success
    else st.current
  { success := success, current := current }

/-- The counters after the library has delivered a trace of progress events. -/
def runHook (events : List String) : HookState :=
  events.foldl stepHook { success := 0, current := 0 }

/-- Number of "finished" events in a progress trace. -/
def countFinished (events : List String) : Int :=
  ((events.filter (fun s => s == "finished")).length : Int)

/-- The two service fields set by `__init__` that `download` reads.
(The constructor also re-runs `ensure_output_dir` on a directory the CLI has
already created; that idempotent call is not modelled.) -/
structure Service where
  output_dir : String
  download_video : Bool

/-- Outcomes of the external calls one `download(url)` invocation makes:
whether `shutil.which("ffmpeg")` finds the binary, the outcome of
`extract_info` inside `get_playlist_info`, the statuses delivered to the
progress hook by `ydl.download`, and whether `ydl.download` then raised
(the raised error is caught and logged at lines 178-181, so it can at most
truncate `events`; it is carried here to state that explicitly). -/
structure Env where
  ffmpeg : Bool
  fetch : Except String InfoDict
  events : List String
  libRaises : Bool

/-- External calls, in the order `download` performs them. -/
inductive ExtCall
  | checkFfmpeg
  | fetchMetadata
  | libDownload
deriving DecidableEq

/-- Observable outcome of one `download(url)` call: the returned pair or the
propagated `RuntimeError`, the external calls performed in order, the options
dict handed to yt-dlp (none if aborted first), and the `total` forwarded to
`_progress_hook` (none if no download was attempted). -/
structure DownloadRun where
  result : Except String (Int × Int)
  actions : List ExtCall
  opts : Option YdlOpts
  progressTotal : Option Int

/-- `download` (lines 131-184).  Audio mode first runs the ffmpeg check
(whose `RuntimeError` propagates); then the metadata fetch, aborting with
`(0, 0)` on a falsy result; then the item count, options and progress hook
are set up and `ydl.download` runs, its errors caught and logged; finally
`(success_count, total - success_count)` is returned. -/
def download (svc : Service) (env : Env) : DownloadRun :=
  let pre : List ExtCall := if svc.download_video then [] else [ExtCall.checkFfmpeg]
  match (if svc.download_video then Except.ok () else check_ffmpeg env.ffmpeg) with
  | Except.error e =>
      { result := Except.error e, actions := pre, opts := none, progressTotal := none }
  | Except.ok _ =>
      match get_playlist_info env.fetch with
      | none =>
          { result := Except.ok (0, 0), actions := pre ++ [ExtCall.fetchMetadata],
            opts := none, progressTotal := none }
      | some info =>
          if info.truthy = false then
            { result := Except.ok (0, 0), actions := pre ++ [ExtCall.fetchMetadata],
              opts := none, progressTotal := none }
          else
            let total := deriveTotal info
            let is_playlist := decide (total > 1)
            let opts := build_opts svc.output_dir svc.download_video is_playlist
            let st := runHook env.events
            { result := Except.ok (st.success, total - st.success)
              actions := pre ++ [ExtCall.fetchMetadata, ExtCall.libDownload]
              opts := some opts
              progressTotal := some total }

/-! ## CLI entry point (`main.py`) -/

/-- `run_download` (main.py lines 91-114): runs `service.download(url)`,
catches `RuntimeError` as exit 1, otherwise exits 0 iff the failure count
is zero. -/
def run_download (svc : Service) (env : Env) : Int :=
  match (download svc env).result with
  | Except.error _ => 1
  | Except.ok (_, failure) => if failure = 0 then 0 else 1

/-- The CLI arguments `main` reads (main.py lines 117-143). -/
structure CliArgs where
  url : Option String
  video : Bool

/-- External inputs of one `main()` run: what the interactive prompt would
return, whether `ensure_output_dir` raises `OSError`, and the download
environment. -/
structure MainEnv where
  promptInput : String
  ensureDirFails : Bool
  dl : Env

/-- `args.url or get_user_input(...)` (main.py line 123): the prompt is used
when the positional argument is absent or empty (falsy). -/
def effectiveUrl (args : CliArgs) (menv : MainEnv) : String :=
  match args.url with
  | some u => if u = "" then menv.promptInput else u
  | none => menv.promptInput

/-! ## URL validation (`downloader/validators.py`)

`is_valid_youtube_url` (lines 16-39) rejects non-strings and falsy values,
strips whitespace, requires a match of the case-insensitive regex
`^https?://(www\.)?(youtube\.com|youtu\.be)/.+` (a prefix match; `.` does
not match a newline), and finally checks with `urlparse` that the scheme is
http/https and that one of the `YOUTUBE_DOMAINS` config strings occurs
(case-sensitively) as a substring of the netloc.  We embed it over
`List Char`.  The regex has no real nondeterminism: the optional `s`,
the optional `www.` and the domain alternation are each decided by the
next character, so a first-match matcher is exact. -/

/-- Whitespace as stripped by Python `str.strip` (ASCII fragment; the
URLs at issue are ASCII). -/
def isPyWs (c : Char) : Bool :=
  c == ' ' || c == '\t' || c == '\n' || c == '\r' || c == '\x0b' || c == '\x0c'

/-- Remove trailing whitespace. -/
def rstripChars (l : List Char) : List Char :=
  (l.reverse.dropWhile isPyWs).reverse

/-- Python `str.strip()`: remove leading and trailing whitespace. -/
def pyStrip (l : List Char) : List Char :=
  rstripChars (l.dropWhile isPyWs)

/-- Case-insensitive literal prefix match: `lit` is given in lowercase, and
on success the unconsumed remainder of `s` is returned. -/
def stripCI : List Char → List Char → Option (List Char)
  | [], s => some s
  | _ :: _, [] => none
  | l :: ls, c :: cs => if c.toLower = l then stripCI ls cs else none

/-- Consume an optional literal: on a failed match the input is unchanged. -/
def tryStrip (lit : List Char) (s : List Char) : List Char :=
  match stripCI lit s with
  | some r => r
  | none => s

/-- The trailing `.+` of the pattern: at least one character follows, and
(`.` in a Python regex) it is not a newline; as `re.match` is a prefix
match, nothing beyond that is constrained. -/
def dotPlusOk : List Char → Bool
  | [] => false
  | c :: _ => !(c == '\n')

/-- `YOUTUBE_URL_PATTERN.match(url)` (validators.py lines 10-13):
`^https?://(www\.)?(youtube\.com|youtu\.be)/.+` with `re.IGNORECASE`. -/
def regexMatch (t : List Char) : Bool :=
  match stripCI ("http".toList) t with
  | none => false
  | some r1 =>
    match stripCI ("://".toList) (tryStrip ['s'] r1) with
    | none => false
    | some r3 =>
      let r4 := tryStrip ("www.".toList) r3
      match stripCI ("youtube.com/".toList) r4 with
      | some r5 => dotPlusOk r5
      | none =>
        match stripCI ("youtu.be/".toList) r4 with
        | some r5 => dotPlusOk r5
        | none => false

/-- The netloc of `urlparse`: the characters after `//` up to the first
`/`, `?` or `#`. -/
def takeNetloc : List Char → List Char
  | [] => []
  | c :: cs => if c == '/' || c == '?' || c == '#' then [] else c :: takeNetloc cs

/-- The two components of `urlparse(url)` the validator reads. -/
structure UrlParts where
  scheme : List Char
  netloc : List Char

/-- `urlparse`, for inputs of the shape `scheme://...` — the only shape
reachable at its call site, which is guarded by the regex match.  The
scheme (before the first `:`) is lowercased by `urlparse`; the netloc
follows `//` up to the first `/`, `?` or `#`. -/
def urlparseLite (t : List Char) : UrlParts :=
  let raw := t.takeWhile (fun c => !(c == ':'))
  let rest := (t.dropWhile (fun c => !(c == ':'))).drop 1
  let netloc := if rest.take 2 = ['/', '/'] then takeNetloc (rest.drop 2) else []
  { scheme := raw.map Char.toLower, netloc := netloc }

/-- Python's substring test `pat in hay` on strings. -/
def pyInStr (pat : List Char) : List Char → Bool
  | [] => pat.isEmpty
  | c :: cs => pat.isPrefixOf (c :: cs) || pyInStr pat cs

/-- `YOUTUBE_DOMAINS` (config.py line 21). -/
def YOUTUBE_DOMAINS : List (List Char) :=
  ["youtube.com".toList, "youtu.be".toList, "www.youtube.com".toList]

/-- Body of `is_valid_youtube_url` on the character list of a string
argument (validators.py lines 26-39). -/
def isValidUrlChars (u : List Char) : Bool :=
  if u.isEmpty then false
  else
    let t := pyStrip u
    if t.isEmpty then false
    else if regexMatch t then
      let p := urlparseLite t
      (p.scheme == "http".toList || p.scheme == "https".toList)
        && YOUTUBE_DOMAINS.any (fun d => pyInStr d p.netloc)
    else false

/-- The CLI hands the validator a string, but `is_valid_youtube_url` also
guards against non-string values (`isinstance(url, str)`). -/
inductive UrlInput
  | str (s : String)
  | nonStr

/-- `is_valid_youtube_url` (validators.py lines 16-39). -/
def is_valid_youtube_url : UrlInput → Bool
  | UrlInput.nonStr => false
  | UrlInput.str s => isValidUrlChars s.toList

/-- The eight case-insensitive skeletons a matching URL must start with:
scheme, optional `www.`, known domain, `/`. -/
def CI_PREFIXES : List (List Char) :=
  [ "http://youtube.com/", "http://youtu.be/",
    "http://www.youtube.com/", "http://www.youtu.be/",
    "https://youtube.com/", "https://youtu.be/",
    "https://www.youtube.com/", "https://www.youtu.be/" ].map String.toList

/-- What the validator's pattern accepts, stated declaratively: after
stripping, the string starts (case-insensitively) with one of the eight
`CI_PREFIXES` skeletons, at least one non-newline character follows, and
the `urlparse` scheme/netloc checks of validators.py lines 35-37 hold. -/
def ValidShape (t : List Char) : Prop :=
  (∃ p c r, t = p ++ c :: r ∧ p.map Char.toLower ∈ CI_PREFIXES ∧ c ≠ '\n')
  ∧ ((urlparseLite t).scheme = "http".toList ∨ (urlparseLite t).scheme = "https".toList)
  ∧ (∃ d ∈ YOUTUBE_DOMAINS, pyInStr d (urlparseLite t).netloc = true)

/-- `main` (main.py lines 117-143), as a function of the parsed arguments,
the external inputs, and the resolved output directory (the `-o` value
normalized by `normalize_output_path`, or the default download folder). -/
def mainRun (args : CliArgs) (menv : MainEnv) (outputDir : String) : Int :=
  if effectiveUrl args menv = "" then 1
  else if is_valid_youtube_url (UrlInput.str (effectiveUrl args menv)) = false then 1
  else if menv.ensureDirFails then 1
  else run_download { output_dir := outputDir, download_video := args.video } menv.dl

/-! ## Path normalization (`downloader/validators.py` lines 42-53)

`normalize_output_path` runs `Path(path).expanduser().resolve()`.  We embed
POSIX paths as a flag (absolute?) plus a segment list, the user's home
directory and the working directory as segment lists, and the filesystem as
an abstract value that every modelled operation threads through, so that
"does not touch the filesystem" is the statement that the threaded value is
returned unchanged.  (`resolve` also expands symlinks, which is not
modelled; `expanduser` of `~user` forms is likewise out of scope.) -/

/-- A POSIX path: whether it is absolute, and its segments. -/
structure PyPath where
  absolute : Bool
  segs : List String
deriving DecidableEq

/-- `Path.expanduser()`: a relative path whose first segment is `~` is
re-rooted at the user's home directory. -/
def expanduser (home : List String) (p : PyPath) : PyPath :=
  if p.absolute = false ∧ p.segs.head? = some "~" then
    { absolute := true, segs := home ++ p.segs.tail }
  else p

/-- Lexical path normalization: drop `.` and empty segments, let `..`
consume the previous segment (at the root, `..` stays at the root). -/
def normSegs (segs : List String) : List String :=
  segs.foldl
    (fun acc s =>
      if s = "." ∨ s = "" then acc
      else if s = ".." then acc.dropLast
      else acc ++ [s])
    []

/-- `Path.resolve()` (without symlink expansion): relative paths are rooted
at the working directory, and the result is absolute and normalized. -/
def pyResolve (cwd : List String) (p : PyPath) : PyPath :=
  if p.absolute then { absolute := true, segs := normSegs p.segs }
  else { absolute := true, segs := normSegs (cwd ++ p.segs) }

/-- The filesystem, abstractly: the set of paths that exist. -/
def FS : Type := List (List String)

/-- `normalize_output_path` (validators.py lines 42-53):
`Path(path).expanduser().resolve()`.  The filesystem value is threaded
through untouched — the function contains no `mkdir`/`open`/write call. -/
def normalize_output_path (home cwd : List String) (fs : FS) (p : PyPath) :
    FS × PyPath :=
  (fs, pyResolve cwd (expanduser home p))

/-! ## Helper lemmas -/

/-- One hook event adds one to the running success counter iff it is a
"finished" event. -/
theorem countFinished_cons (e : String) (es : List String) :
    countFinished (e :: es) = (if e == "finished" then 1 else 0) + countFinished es := by
  by_cases h : e == "finished"
  · simp [countFinished, List.filter_cons, h]
    ring
  · simp [countFinished, List.filter_cons, h]

theorem foldl_stepHook_success (events : List String) :
    ∀ st : HookState, (events.foldl stepHook st).success = st.success + countFinished events := by
  induction events with
  | nil => intro st; simp [countFinished]
  | cons e es ih =>
    intro st
    rw [List.foldl_cons, ih, countFinished_cons]
    by_cases h : e == "finished"
    · simp [stepHook, h]
      ring
    · simp [stepHook, h]

/-- The success counter accumulated by the progress-hook closure equals the
number of "finished" events delivered. -/
theorem runHook_success (events : List String) :
    (runHook events).success = countFinished events := by
  rw [runHook, foldl_stepHook_success]
  simp

/-- In audio mode with ffmpeg present, or in video mode, the prerequisite
check passes. -/
theorem check_passes (svc : Service) (env : Env)
    (hpre : svc.download_video = true ∨ env.ffmpeg = true) :
    (if svc.download_video then Except.ok () else check_ffmpeg env.ffmpeg)
      = Except.ok () := by
  rcases hpre with h | h
  · simp [h]
  · cases hdv : svc.download_video <;> simp [check_ffmpeg, h]

/-- The full outcome of `download` on the path where the prerequisite check
passes and the metadata fetch returns a truthy info dict. -/
theorem download_proceed (svc : Service) (env : Env) (info : InfoDict)
    (hfetch : env.fetch = Except.ok info) (ht : info.truthy = true)
    (hpre : svc.download_video = true ∨ env.ffmpeg = true) :
    download svc env =
      { result := Except.ok (countFinished env.events,
                             deriveTotal info - countFinished env.events)
        actions := (if svc.download_video then [] else [ExtCall.checkFfmpeg])
                     ++ [ExtCall.fetchMetadata, ExtCall.libDownload]
        opts := some (build_opts svc.output_dir svc.download_video
                        (decide (deriveTotal info > 1)))
        progressTotal := some (deriveTotal info) } := by
  unfold download
  rw [check_passes svc env hpre, hfetch]
  simp [get_playlist_info, ht, runHook_success]

/-- The full outcome of `download` on the path where the prerequisite check
passes and the metadata fetch fails (returns `None` or a falsy dict). -/
theorem download_abort (svc : Service) (env : Env)
    (hfail : ∀ info, get_playlist_info env.fetch = some info → info.truthy = false)
    (hpre : svc.download_video = true ∨ env.ffmpeg = true) :
    download svc env =
      { result := Except.ok (0, 0)
        actions := (if svc.download_video then [] else [ExtCall.checkFfmpeg])
                     ++ [ExtCall.fetchMetadata]
        opts := none
        progressTotal := none } := by
  unfold download
  rw [check_passes svc env hpre]
  cases hinfo : get_playlist_info env.fetch with
  | none => simp
  | some info => simp [hfail info hinfo]

/-- The full outcome of `download` in audio mode with ffmpeg missing. -/
theorem download_ffmpeg_missing (svc : Service) (env : Env)
    (hdv : svc.download_video = false) (hff : env.ffmpeg = false) :
    download svc env =
      { result := Except.error FFMPEG_ERROR_MSG
        actions := [ExtCall.checkFfmpeg]
        opts := none
        progressTotal := none } := by
  unfold download
  simp [hdv, hff, check_ffmpeg]

/-! ## Claims about the item-count and result pair -/

/-- C2: `download()` derives the item total as follows: zero or absent
entries are treated as exactly 1 item, and null entries from partial
playlist fetches are filtered out so that, when entries are present, the
total is the count of non-null (truthy) entries; an empty or absent entry
list yields total 1, an entry list `[None, item, None, item]` yields total
2, and on a completed fetch this total is the one used for the options and
forwarded to the progress reporting. -/
theorem claim_c2_item_total (info : InfoDict) :
    (info.getEntries = [] → deriveTotal info = 1)
  ∧ (info.getEntries ≠ [] →
      deriveTotal info = ((info.getEntries.filter PyVal.truthy).length : Int))
  ∧ deriveTotal { entries := EntriesVal.absent, extraKeys := 2 } = 1
  ∧ deriveTotal { entries := EntriesVal.list [], extraKeys := 2 } = 1
  ∧ deriveTotal { entries := EntriesVal.list [PyVal.vNone, PyVal.vDict 3, PyVal.vNone, PyVal.vDict 3], extraKeys := 2 } = 2
  ∧ (∀ svc env, env.fetch = Except.ok info → info.truthy = true →
      (svc.download_video = true ∨ env.ffmpeg = true) →
      (download svc env).progressTotal = some (deriveTotal info)
      ∧ (download svc env).opts = some (build_opts svc.output_dir svc.download_video
          (decide (deriveTotal info > 1)))) := by
  refine ⟨?_, ?_, by decide, by decide, by decide, ?_⟩
  · intro h; simp [deriveTotal, h]
  · intro h; simp [deriveTotal, h]
  · intro svc env hfetch ht hpre
    rw [download_proceed svc env info hfetch ht hpre]
    exact ⟨rfl, rfl⟩

/-- Witness for C2 at concrete inputs. -/
theorem claim_c2_item_total_witness :
    deriveTotal { entries := EntriesVal.absent, extraKeys := 2 } = 1
  ∧ (download { output_dir := "/out", download_video := true }
      { ffmpeg := false
        fetch := Except.ok { entries := EntriesVal.list [PyVal.vNone, PyVal.vDict 3, PyVal.vNone, PyVal.vDict 3], extraKeys := 2 }
        events := [], libRaises := false }).progressTotal = some 2 := by
  constructor
  · exact (claim_c2_item_total { entries := EntriesVal.absent, extraKeys := 2 }).1 rfl
  · have h := ((claim_c2_item_total _).2.2.2.2.2
      { output_dir := "/out", download_video := true }
      { ffmpeg := false
        fetch := Except.ok { entries := EntriesVal.list [PyVal.vNone, PyVal.vDict 3, PyVal.vNone, PyVal.vDict 3], extraKeys := 2 }
        events := [], libRaises := false } rfl rfl (Or.inl rfl)).1
    rw [h]; rfl

/-- C3: on a completed `download()` over a truthy metadata result, if the
progress hook observed `s` "finished" events then the returned pair is
`(s, total - s)`; whether the extraction library raised mid-batch does not
change the outcome (the error is caught, and the successes accumulated
before it are still counted). -/
theorem claim_c3_partial_batch (svc : Service) (env : Env) (info : InfoDict)
    (hfetch : env.fetch = Except.ok info) (ht : info.truthy = true)
    (hpre : svc.download_video = true ∨ env.ffmpeg = true) :
    (download svc env).result =
      Except.ok (countFinished env.events, deriveTotal info - countFinished env.events)
  ∧ download svc { env with libRaises := true }
      = download svc { env with libRaises := false } := by
  constructor
  · rw [download_proceed svc env info hfetch ht hpre]
  · cases env; rfl

/-- Witness for C3: a 5-item playlist whose trace holds 3 "finished" events
(the library erroring out afterwards) returns `(3, 2)`. -/
theorem claim_c3_partial_batch_witness :
    (download { output_dir := "/out", download_video := true }
      { ffmpeg := false
        fetch := Except.ok { entries := EntriesVal.list [PyVal.vDict 3, PyVal.vDict 3, PyVal.vDict 3, PyVal.vDict 3, PyVal.vDict 3], extraKeys := 2 }
        events := ["downloading", "finished", "downloading", "finished", "downloading", "finished"]
        libRaises := true }).result = Except.ok (3, 2) := by
  have h := (claim_c3_partial_batch
    { output_dir := "/out", download_video := true }
    { ffmpeg := false
      fetch := Except.ok { entries := EntriesVal.list [PyVal.vDict 3, PyVal.vDict 3, PyVal.vDict 3, PyVal.vDict 3, PyVal.vDict 3], extraKeys := 2 }
      events := ["downloading", "finished", "downloading", "finished", "downloading", "finished"]
      libRaises := true }
    { entries := EntriesVal.list [PyVal.vDict 3, PyVal.vDict 3, PyVal.vDict 3, PyVal.vDict 3, PyVal.vDict 3], extraKeys := 2 }
    rfl rfl (Or.inl rfl)).1
  rw [h]; rfl

/-- C10: whenever `download()` returns a pair `(s, f)` from a completed
fetch, `s + f` equals the derived item total; `f` is computed by
subtraction and never clamped, so more "finished" events than the derived
total make the returned failure count negative. -/
theorem claim_c10_sum_invariant (svc : Service) (env : Env) (info : InfoDict)
    (hfetch : env.fetch = Except.ok info) (ht : info.truthy = true)
    (hpre : svc.download_video = true ∨ env.ffmpeg = true)
    (s f : Int) (hres : (download svc env).result = Except.ok (s, f)) :
    s + f = deriveTotal info
  ∧ (countFinished env.events > deriveTotal info → f < 0) := by
  rw [download_proceed svc env info hfetch ht hpre] at hres
  have hs : s = countFinished env.events := by
    simpa using congrArg (fun r => match r with
      | Except.ok (a, _) => a
      | Except.error _ => 0) hres.symm
  have hf : f = deriveTotal info - countFinished env.events := by
    simpa using congrArg (fun r => match r with
      | Except.ok (_, b) => b
      | Except.error _ => 0) hres.symm
  constructor
  · rw [hs, hf]; ring
  · intro hgt; rw [hf]; omega

/-- Witness for C10: a single-video target (total 1) whose trace reports 3
"finished" events returns failure count `1 - 3 = -2 < 0`. -/
theorem claim_c10_sum_invariant_witness :
    ((3 : Int) + (-2) = deriveTotal { entries := EntriesVal.absent, extraKeys := 2 })
  ∧ ((-2 : Int) < 0) := by
  have h := claim_c10_sum_invariant
    { output_dir := "/out", download_video := true }
    { ffmpeg := false
      fetch := Except.ok { entries := EntriesVal.absent, extraKeys := 2 }
      events := ["finished", "finished", "finished"], libRaises := false }
    { entries := EntriesVal.absent, extraKeys := 2 }
    rfl rfl (Or.inl rfl) 3 (-2) (by rfl)
  exact ⟨h.1, h.2 (by decide)⟩

/-- A successful metadata lookup means the fetch outcome was `ok`. -/
theorem fetch_of_gpi (env : Env) (info : InfoDict)
    (hg : get_playlist_info env.fetch = some info) : env.fetch = Except.ok info := by
  cases hf : env.fetch with
  | ok i => rw [hf] at hg; simp [get_playlist_info] at hg; rw [hg]
  | error e => rw [hf] at hg; simp [get_playlist_info] at hg

/-! ## Claims about the ffmpeg prerequisite and metadata failure -/

/-- C5: in audio mode, `download` raises the descriptive ffmpeg
`RuntimeError` when the binary is absent, before the metadata fetch (its
only performed external call is the PATH check); in video mode the check
is skipped entirely and the outcome does not depend on ffmpeg's presence. -/
theorem claim_c5_ffmpeg_check (dir : String) (env : Env) :
    (env.ffmpeg = false →
      (download { output_dir := dir, download_video := false } env).result
          = Except.error FFMPEG_ERROR_MSG
      ∧ (download { output_dir := dir, download_video := false } env).actions
          = [ExtCall.checkFfmpeg]
      ∧ ExtCall.fetchMetadata ∉
          (download { output_dir := dir, download_video := false } env).actions)
  ∧ ExtCall.checkFfmpeg ∉
      (download { output_dir := dir, download_video := true } env).actions
  ∧ (∀ b, download { output_dir := dir, download_video := true } env
        = download { output_dir := dir, download_video := true } { env with ffmpeg := b }) := by
  refine ⟨?_, ?_, ?_⟩
  · intro hff
    rw [download_ffmpeg_missing _ env rfl hff]
    exact ⟨rfl, rfl, by decide⟩
  · cases hg : get_playlist_info env.fetch with
    | none =>
        rw [download_abort _ env (fun i hi => by rw [hg] at hi; cases hi) (Or.inl rfl)]
        simp
    | some info =>
        by_cases ht : info.truthy = true
        · rw [download_proceed _ env info (fetch_of_gpi env info hg) ht (Or.inl rfl)]
          simp
        · rw [download_abort _ env
            (fun i hi => by rw [hg] at hi; cases hi; simpa using ht) (Or.inl rfl)]
          simp
  · intro b; cases env; rfl

/-- Witness for C5 at a concrete environment. -/
theorem claim_c5_ffmpeg_check_witness :
    (download { output_dir := "/out", download_video := false }
      { ffmpeg := false, fetch := Except.ok { entries := EntriesVal.absent, extraKeys := 2 },
        events := [], libRaises := false }).result = Except.error FFMPEG_ERROR_MSG := by
  exact ((claim_c5_ffmpeg_check "/out"
    { ffmpeg := false, fetch := Except.ok { entries := EntriesVal.absent, extraKeys := 2 },
      events := [], libRaises := false }).1 rfl).1

/-- C6: `get_playlist_info` never propagates an extraction-library error
(it returns `None`), and on a failed fetch (`None` or a falsy result)
`download` returns `(0, 0)` without building options or invoking the
library's download routine. -/
theorem claim_c6_metadata_failure (svc : Service) (env : Env)
    (hpre : svc.download_video = true ∨ env.ffmpeg = true)
    (hfail : ∀ info, get_playlist_info env.fetch = some info → info.truthy = false) :
    (∀ e, get_playlist_info (Except.error e) = none)
  ∧ (download svc env).result = Except.ok (0, 0)
  ∧ ExtCall.libDownload ∉ (download svc env).actions
  ∧ (download svc env).opts = none := by
  refine ⟨fun e => rfl, ?_, ?_, ?_⟩
  · rw [download_abort svc env hfail hpre]
  · rw [download_abort svc env hfail hpre]
    cases h : svc.download_video <;> simp [h]
  · rw [download_abort svc env hfail hpre]

/-- Witness for C6: a fetch that raised a library error yields `(0, 0)`. -/
theorem claim_c6_metadata_failure_witness :
    (download { output_dir := "/out", download_video := true }
      { ffmpeg := false, fetch := Except.error "HTTP Error 404",
        events := [], libRaises := false }).result = Except.ok (0, 0)
  ∧ ExtCall.libDownload ∉ (download { output_dir := "/out", download_video := true }
      { ffmpeg := false, fetch := Except.error "HTTP Error 404",
        events := [], libRaises := false }).actions := by
  have h := claim_c6_metadata_failure
    { output_dir := "/out", download_video := true }
    { ffmpeg := false, fetch := Except.error "HTTP Error 404",
      events := [], libRaises := false }
    (Or.inl rfl)
    (fun info hi => by simp [get_playlist_info] at hi)
  exact ⟨h.2.1, h.2.2.1⟩

/-- C9: the playlist output layout is selected iff the derived item total
is strictly greater than 1: the options are always built with
`is_playlist = (total > 1)`; a total of 1 or less — including a playlist
whose metadata lists exactly one available entry — selects the
single-video template, whose path is the base directory joined with a
template containing no subfolder, while a total above 1 selects the
playlist-subfolder template. -/
theorem claim_c9_playlist_threshold (svc : Service) (env : Env) (info : InfoDict)
    (hfetch : env.fetch = Except.ok info) (ht : info.truthy = true)
    (hpre : svc.download_video = true ∨ env.ffmpeg = true) :
    (download svc env).opts
        = some (build_opts svc.output_dir svc.download_video (decide (deriveTotal info > 1)))
  ∧ (deriveTotal info ≤ 1 →
      (download svc env).opts = some (build_opts svc.output_dir svc.download_video false)
      ∧ (build_opts svc.output_dir svc.download_video false).outtmpl
          = pathJoin svc.output_dir
              (if svc.download_video then SINGLE_VIDEO_TEMPLATE else SINGLE_VIDEO_TEMPLATE_WAV))
  ∧ (deriveTotal info > 1 →
      (build_opts svc.output_dir svc.download_video (decide (deriveTotal info > 1))).outtmpl
          = pathJoin svc.output_dir
              (if svc.download_video then OUTPUT_TEMPLATE else OUTPUT_TEMPLATE_WAV))
  ∧ deriveTotal { entries := EntriesVal.list [PyVal.vDict 3], extraKeys := 2 } = 1
  ∧ SINGLE_VIDEO_TEMPLATE.toList.contains '/' = false
  ∧ SINGLE_VIDEO_TEMPLATE_WAV.toList.contains '/' = false
  ∧ "%(playlist_title)s/".toList.isPrefixOf OUTPUT_TEMPLATE.toList = true
  ∧ "%(playlist_title)s/".toList.isPrefixOf OUTPUT_TEMPLATE_WAV.toList = true := by
  refine ⟨?_, ?_, ?_, by decide, by decide, by decide, by decide, by decide⟩
  · rw [download_proceed svc env info hfetch ht hpre]
  · intro hle
    have hdec : decide (deriveTotal info > 1) = false := decide_eq_false (by omega)
    constructor
    · rw [download_proceed svc env info hfetch ht hpre, hdec]
    · cases hdv : svc.download_video <;> simp [build_opts, hdv]
  · intro hgt
    have hdec : decide (deriveTotal info > 1) = true := decide_eq_true hgt
    rw [hdec]
    cases hdv : svc.download_video <;> simp [build_opts, hdv]

/-- Witness for C9: a playlist URL whose metadata lists exactly one
available entry gets the single-video options. -/
theorem claim_c9_playlist_threshold_witness :
    (download { output_dir := "/out", download_video := false }
      { ffmpeg := true, fetch := Except.ok { entries := EntriesVal.list [PyVal.vDict 3], extraKeys := 2 },
        events := [], libRaises := false }).opts
      = some (build_opts "/out" false false) := by
  have h := claim_c9_playlist_threshold
    { output_dir := "/out", download_video := false }
    { ffmpeg := true, fetch := Except.ok { entries := EntriesVal.list [PyVal.vDict 3], extraKeys := 2 },
      events := [], libRaises := false }
    { entries := EntriesVal.list [PyVal.vDict 3], extraKeys := 2 }
    rfl rfl (Or.inr rfl)
  exact (h.2.1 (by decide)).1

/-! ## Claim about the CLI exit codes -/

/-- The only error `download` can propagate is the ffmpeg `RuntimeError`. -/
theorem download_error_msg (svc : Service) (env : Env) (e : String)
    (h : (download svc env).result = Except.error e) : e = FFMPEG_ERROR_MSG := by
  by_cases hdv : svc.download_video = false
  · by_cases hff : env.ffmpeg = false
    · rw [download_ffmpeg_missing svc env hdv hff] at h
      simpa using h.symm
    · have hpre : svc.download_video = true ∨ env.ffmpeg = true :=
        Or.inr (by simpa using hff)
      cases hg : get_playlist_info env.fetch with
      | none =>
          rw [download_abort svc env (fun i hi => by rw [hg] at hi; cases hi) hpre] at h
          simp at h
      | some info =>
          by_cases ht : info.truthy = true
          · rw [download_proceed svc env info (fetch_of_gpi env info hg) ht hpre] at h
            simp at h
          · rw [download_abort svc env
              (fun i hi => by rw [hg] at hi; cases hi; simpa using ht) hpre] at h
            simp at h
  · have hpre : svc.download_video = true ∨ env.ffmpeg = true :=
      Or.inl (by simpa using hdv)
    cases hg : get_playlist_info env.fetch with
    | none =>
        rw [download_abort svc env (fun i hi => by rw [hg] at hi; cases hi) hpre] at h
        simp at h
    | some info =>
        by_cases ht : info.truthy = true
        · rw [download_proceed svc env info (fetch_of_gpi env info hg) ht hpre] at h
          simp at h
        · rw [download_abort svc env
            (fun i hi => by rw [hg] at hi; cases hi; simpa using ht) hpre] at h
          simp at h

/-- `run_download` returns only 0 or 1. -/
theorem run_download_zero_or_one (svc : Service) (env : Env) :
    run_download svc env = 0 ∨ run_download svc env = 1 := by
  unfold run_download
  cases (download svc env).result with
  | error e => right; rfl
  | ok p =>
    obtain ⟨s, f⟩ := p
    by_cases hf : f = 0
    · left; simp [hf]
    · right; simp [hf]

/-- `run_download` exits 0 exactly when the returned pair reports zero
failures. -/
theorem run_download_eq_zero_iff (svc : Service) (env : Env) :
    run_download svc env = 0
      ↔ ∃ s : Int, (download svc env).result = Except.ok (s, 0) := by
  unfold run_download
  cases hres : (download svc env).result with
  | error e => simp
  | ok p =>
    obtain ⟨s, f⟩ := p
    by_cases hf : f = 0
    · subst hf; simp
    · simp [hf]

/-- C1: the CLI exit code is 0 or 1; it is 0 exactly when every validation
step passed and the download result reports zero failures (so exit 1 on an
invalid or empty URL, on an output-directory error, on a propagated
prerequisite error, and on any nonzero failure count); a propagated
`RuntimeError` is always the descriptive ffmpeg message and maps to exit 1. -/
theorem claim_c1_exit_codes (args : CliArgs) (menv : MainEnv) (outputDir : String) :
    (mainRun args menv outputDir = 0 ∨ mainRun args menv outputDir = 1)
  ∧ (mainRun args menv outputDir = 0 ↔
      (effectiveUrl args menv ≠ ""
       ∧ is_valid_youtube_url (UrlInput.str (effectiveUrl args menv)) = true
       ∧ menv.ensureDirFails = false
       ∧ ∃ s : Int, (download { output_dir := outputDir, download_video := args.video }
            menv.dl).result = Except.ok (s, 0)))
  ∧ (∀ e, (download { output_dir := outputDir, download_video := args.video }
        menv.dl).result = Except.error e →
      e = FFMPEG_ERROR_MSG
      ∧ run_download { output_dir := outputDir, download_video := args.video } menv.dl = 1) := by
  refine ⟨?_, ?_, ?_⟩
  · unfold mainRun
    split_ifs with a b c
    · right; rfl
    · right; rfl
    · right; rfl
    · exact run_download_zero_or_one _ _
  · unfold mainRun
    split_ifs with a b c
    · constructor
      · intro h; exact absurd h (by decide)
      · rintro ⟨hne, -, -, -⟩; exact absurd a hne
    · constructor
      · intro h; exact absurd h (by decide)
      · rintro ⟨-, hv, -, -⟩; exact absurd hv (by simp [b])
    · constructor
      · intro h; exact absurd h (by decide)
      · rintro ⟨-, -, hd, -⟩; exact absurd hd (by simp [c])
    · rw [run_download_eq_zero_iff]
      constructor
      · intro hex; exact ⟨a, by simpa using b, by simpa using c, hex⟩
      · rintro ⟨-, -, -, hex⟩; exact hex
  · intro e he
    refine ⟨download_error_msg _ _ e he, ?_⟩
    unfold run_download
    rw [he]

/-- Witness for C1: a valid URL with a clean single-item download exits 0,
and a missing-ffmpeg audio run maps its `RuntimeError` to exit 1. -/
theorem claim_c1_exit_codes_witness :
    mainRun { url := some "https://youtu.be/abc", video := false }
      { promptInput := "", ensureDirFails := false,
        dl := { ffmpeg := true, fetch := Except.ok { entries := EntriesVal.absent, extraKeys := 2 },
                events := ["finished"], libRaises := false } } "/out" = 0
  ∧ run_download { output_dir := "/out", download_video := false }
      { ffmpeg := false, fetch := Except.ok { entries := EntriesVal.absent, extraKeys := 2 },
        events := [], libRaises := false } = 1 := by
  constructor
  · exact (claim_c1_exit_codes
      { url := some "https://youtu.be/abc", video := false }
      { promptInput := "", ensureDirFails := false,
        dl := { ffmpeg := true, fetch := Except.ok { entries := EntriesVal.absent, extraKeys := 2 },
                events := ["finished"], libRaises := false } } "/out").2.1.mpr
      ⟨by decide, by decide, rfl, ⟨1, rfl⟩⟩
  · exact ((claim_c1_exit_codes
      { url := some "https://youtu.be/abc", video := false }
      { promptInput := "", ensureDirFails := false,
        dl := { ffmpeg := false, fetch := Except.ok { entries := EntriesVal.absent, extraKeys := 2 },
                events := [], libRaises := false } } "/out").2.2
      FFMPEG_ERROR_MSG rfl).2

/-! ## Claim about URL validation -/

/-- A successful case-insensitive literal match decomposes the input. -/
theorem stripCI_some (lit : List Char) :
    ∀ s r, stripCI lit s = some r → ∃ p, s = p ++ r ∧ p.map Char.toLower = lit := by
  induction lit with
  | nil =>
    intro s r h
    simp only [stripCI, Option.some.injEq] at h
    exact ⟨[], by simp [h], rfl⟩
  | cons l ls ih =>
    intro s r h
    cases s with
    | nil => simp [stripCI] at h
    | cons c cs =>
      simp only [stripCI] at h
      by_cases hc : c.toLower = l
      · rw [if_pos hc] at h
        obtain ⟨p, hp, hm⟩ := ih cs r h
        exact ⟨c :: p, by simp [hp], by simp [hm, hc]⟩
      · rw [if_neg hc] at h; cases h

/-- `dropWhile` passes over an append whose boundary element fails the
predicate. -/
theorem dropWhile_append_stop (p : Char → Bool) (a : List Char) (c : Char)
    (b : List Char) (hc : p c = false) :
    (a ++ c :: b).dropWhile p = a.dropWhile p ++ c :: b := by
  induction a with
  | nil => simp [List.dropWhile_cons, hc]
  | cons x xs ih =>
    by_cases hx : p x
    · simp [List.dropWhile_cons, hx, ih]
    · simp [List.dropWhile_cons, hx]

/-- Right-stripping does not cross a non-whitespace character. -/
theorem rstripChars_append_stop (xs : List Char) (c : Char) (r : List Char)
    (hc : isPyWs c = false) :
    rstripChars (xs ++ c :: r) = xs ++ c :: rstripChars r := by
  unfold rstripChars
  rw [List.reverse_append, List.reverse_cons, List.append_assoc,
    List.singleton_append,
    dropWhile_append_stop isPyWs r.reverse c xs.reverse hc,
    List.reverse_append, List.reverse_cons, List.reverse_reverse]
  simp

/-- `str.strip()` on a string with a non-whitespace head keeps any prefix up
to a non-whitespace character intact. -/
theorem pyStrip_append_stop (xs : List Char) (c : Char) (r : List Char)
    (hx : ∀ x, xs.head? = some x → isPyWs x = false) (hc : isPyWs c = false) :
    pyStrip (xs ++ c :: r) = xs ++ c :: rstripChars r := by
  cases xs with
  | nil =>
    unfold pyStrip
    rw [List.nil_append, List.dropWhile_cons_of_neg (by simp [hc])]
    exact rstripChars_append_stop [] c r hc
  | cons x xs' =>
    unfold pyStrip
    rw [List.cons_append,
      List.dropWhile_cons_of_neg (by simp [hx x rfl]), ← List.cons_append]
    exact rstripChars_append_stop (x :: xs') c r hc

/-- A non-whitespace character is not a newline. -/
theorem not_nl_of_not_ws (c : Char) (hc : isPyWs c = false) : (c == '\n') = false := by
  by_cases h : c = '\n'
  · subst h; simp [isPyWs] at hc
  · simp [h]

/-- The validator body as one boolean expression: regex match plus the
urlparse scheme/netloc checks, all on the stripped input. -/
theorem isValidUrlChars_eq (u : List Char) :
    isValidUrlChars u =
      (regexMatch (pyStrip u)
        && (((urlparseLite (pyStrip u)).scheme == "http".toList
              || (urlparseLite (pyStrip u)).scheme == "https".toList)
            && YOUTUBE_DOMAINS.any (fun d => pyInStr d (urlparseLite (pyStrip u)).netloc))) := by
  unfold isValidUrlChars
  by_cases hu : u.isEmpty
  · rw [if_pos hu]
    have hu' : u = [] := by simpa using hu
    subst hu'
    rfl
  · rw [if_neg hu]
    by_cases ht : (pyStrip u).isEmpty
    · rw [if_pos ht]
      have ht' : pyStrip u = [] := by simpa using ht
      rw [ht']
      rfl
    · rw [if_neg ht]
      cases hr : regexMatch (pyStrip u)
      · rw [if_neg (by simp [hr])]
        simp
      · rw [if_pos (by simp [hr])]
        simp

/-- A string accepted by the regex decomposes into a case-insensitive
skeleton prefix followed by a non-newline character. -/
theorem regexMatch_decomp (t : List Char) (h : regexMatch t = true) :
    ∃ p c r, t = p ++ c :: r ∧ p.map Char.toLower ∈ CI_PREFIXES ∧ c ≠ '\n' := by
  unfold regexMatch at h
  cases h1 : stripCI ("http".toList) t with
  | none => rw [h1] at h; cases h
  | some r1 =>
    rw [h1] at h
    obtain ⟨p1, ht1, hm1⟩ := stripCI_some _ t r1 h1
    cases hs : stripCI ['s'] r1 with
    | none =>
      simp only [tryStrip, hs] at h
      cases h2 : stripCI ("://".toList) r1 with
      | none => rw [h2] at h; cases h
      | some r3 =>
        rw [h2] at h
        obtain ⟨p2, ht2, hm2⟩ := stripCI_some _ r1 r3 h2
        cases hw : stripCI ("www.".toList) r3 with
        | none =>
          simp only [tryStrip, hw] at h
          cases hd : stripCI ("youtube.com/".toList) r3 with
          | none =>
            rw [hd] at h
            cases hd2 : stripCI ("youtu.be/".toList) r3 with
            | none => rw [hd2] at h; cases h
            | some r5 =>
              rw [hd2] at h
              obtain ⟨pd, htd, hmd⟩ := stripCI_some _ r3 r5 hd2
              cases r5 with
              | nil => cases h
              | cons c rest =>
                refine ⟨p1 ++ p2 ++ pd, c, rest, ?_, ?_, ?_⟩
                · rw [ht1, ht2, htd]; simp [List.append_assoc]
                · simp only [List.map_append, hm1, hm2, hmd]; decide
                · intro hcn; rw [hcn] at h; simp [dotPlusOk] at h
          | some r5 =>
            rw [hd] at h
            obtain ⟨pd, htd, hmd⟩ := stripCI_some _ r3 r5 hd
            cases r5 with
            | nil => cases h
            | cons c rest =>
              refine ⟨p1 ++ p2 ++ pd, c, rest, ?_, ?_, ?_⟩
              · rw [ht1, ht2, htd]; simp [List.append_assoc]
              · simp only [List.map_append, hm1, hm2, hmd]; decide
              · intro hcn; rw [hcn] at h; simp [dotPlusOk] at h
        | some r4 =>
          simp only [tryStrip, hw] at h
          obtain ⟨pw, htw, hmw⟩ := stripCI_some _ r3 r4 hw
          cases hd : stripCI ("youtube.com/".toList) r4 with
          | none =>
            rw [hd] at h
            cases hd2 : stripCI ("youtu.be/".toList) r4 with
            | none => rw [hd2] at h; cases h
            | some r5 =>
              rw [hd2] at h
              obtain ⟨pd, htd, hmd⟩ := stripCI_some _ r4 r5 hd2
              cases r5 with
              | nil => cases h
              | cons c rest =>
                refine ⟨p1 ++ p2 ++ pw ++ pd, c, rest, ?_, ?_, ?_⟩
                · rw [ht1, ht2, htw, htd]; simp [List.append_assoc]
                · simp only [List.map_append, hm1, hm2, hmw, hmd]; decide
                · intro hcn; rw [hcn] at h; simp [dotPlusOk] at h
          | some r5 =>
            rw [hd] at h
            obtain ⟨pd, htd, hmd⟩ := stripCI_some _ r4 r5 hd
            cases r5 with
            | nil => cases h
            | cons c rest =>
              refine ⟨p1 ++ p2 ++ pw ++ pd, c, rest, ?_, ?_, ?_⟩
              · rw [ht1, ht2, htw, htd]; simp [List.append_assoc]
              · simp only [List.map_append, hm1, hm2, hmw, hmd]; decide
              · intro hcn; rw [hcn] at h; simp [dotPlusOk] at h
    | some rs =>
      simp only [tryStrip, hs] at h
      obtain ⟨ps, hts, hms⟩ := stripCI_some _ r1 rs hs
      cases h2 : stripCI ("://".toList) rs with
      | none => rw [h2] at h; cases h
      | some r3 =>
        rw [h2] at h
        obtain ⟨p2, ht2, hm2⟩ := stripCI_some _ rs r3 h2
        cases hw : stripCI ("www.".toList) r3 with
        | none =>
          simp only [tryStrip, hw] at h
          cases hd : stripCI ("youtube.com/".toList) r3 with
          | none =>
            cases hd2 : stripCI ("youtu.be/".toList) r3 with
            | none => rw [hd, hd2] at h; cases h
            | some r5 =>
              rw [hd, hd2] at h
              obtain ⟨pd, htd, hmd⟩ := stripCI_some _ r3 r5 hd2
              cases r5 with
              | nil => cases h
              | cons c rest =>
                refine ⟨p1 ++ ps ++ p2 ++ pd, c, rest, ?_, ?_, ?_⟩
                · rw [ht1, hts, ht2, htd]; simp [List.append_assoc]
                · simp only [List.map_append, hm1, hms, hm2, hmd]; decide
                · intro hcn; rw [hcn] at h; simp [dotPlusOk] at h
          | some r5 =>
            rw [hd] at h
            obtain ⟨pd, htd, hmd⟩ := stripCI_some _ r3 r5 hd
            cases r5 with
            | nil => cases h
            | cons c rest =>
              refine ⟨p1 ++ ps ++ p2 ++ pd, c, rest, ?_, ?_, ?_⟩
              · rw [ht1, hts, ht2, htd]; simp [List.append_assoc]
              · simp only [List.map_append, hm1, hms, hm2, hmd]; decide
              · intro hcn; rw [hcn] at h; simp [dotPlusOk] at h
        | some r4 =>
          simp only [tryStrip, hw] at h
          obtain ⟨pw, htw, hmw⟩ := stripCI_some _ r3 r4 hw
          cases hd : stripCI ("youtube.com/".toList) r4 with
          | none =>
            cases hd2 : stripCI ("youtu.be/".toList) r4 with
            | none => rw [hd, hd2] at h; cases h
            | some r5 =>
              rw [hd, hd2] at h
              obtain ⟨pd, htd, hmd⟩ := stripCI_some _ r4 r5 hd2
              cases r5 with
              | nil => cases h
              | cons c rest =>
                refine ⟨p1 ++ ps ++ p2 ++ pw ++ pd, c, rest, ?_, ?_, ?_⟩
                · rw [ht1, hts, ht2, htw, htd]; simp [List.append_assoc]
                · simp only [List.map_append, hm1, hms, hm2, hmw, hmd]; decide
                · intro hcn; rw [hcn] at h; simp [dotPlusOk] at h
          | some r5 =>
            rw [hd] at h
            obtain ⟨pd, htd, hmd⟩ := stripCI_some _ r4 r5 hd
            cases r5 with
            | nil => cases h
            | cons c rest =>
              refine ⟨p1 ++ ps ++ p2 ++ pw ++ pd, c, rest, ?_, ?_, ?_⟩
              · rw [ht1, hts, ht2, htw, htd]; simp [List.append_assoc]
              · simp only [List.map_append, hm1, hms, hm2, hmw, hmd]; decide
              · intro hcn; rw [hcn] at h; simp [dotPlusOk] at h

/-- C4: `is_valid_youtube_url` rejects non-string input, anything that
strips to the empty string, and — contrapositively — anything outside the
`http(s)://[www.]{youtube.com|youtu.be}/<non-empty>` shape with the known
domains (any accepted string has that shape after stripping and passes the
scheme/known-domain checks); conversely every canonical YouTube URL is
accepted regardless of its query parameters or path suffix; concrete
positive and negative instances included.  It is a total function over the
embedded inputs (pure, no exception path). -/
theorem claim_c4_url_validation :
    is_valid_youtube_url UrlInput.nonStr = false
  ∧ (∀ s : String, pyStrip s.toList = [] → is_valid_youtube_url (UrlInput.str s) = false)
  ∧ (∀ s : String, is_valid_youtube_url (UrlInput.str s) = true → ValidShape (pyStrip s.toList))
  ∧ (∀ pre ∈ CI_PREFIXES, ∀ (c : Char) (r : List Char), isPyWs c = false →
      is_valid_youtube_url (UrlInput.str (String.mk (pre ++ c :: r))) = true)
  ∧ is_valid_youtube_url (UrlInput.str "https://www.youtube.com/watch?v=abc123&t=10s") = true
  ∧ is_valid_youtube_url (UrlInput.str "https://youtu.be/dQw4w9WgXcQ") = true
  ∧ is_valid_youtube_url (UrlInput.str "http://youtube.com/playlist?list=PLx") = true
  ∧ is_valid_youtube_url (UrlInput.str "https://vimeo.com/12345") = false
  ∧ is_valid_youtube_url (UrlInput.str "") = false
  ∧ is_valid_youtube_url (UrlInput.str "   ") = false
  ∧ is_valid_youtube_url (UrlInput.str "youtube.com/watch?v=abc") = false
  ∧ is_valid_youtube_url (UrlInput.str "https://youtube.com") = false
  ∧ is_valid_youtube_url (UrlInput.str "not a url") = false := by
  refine ⟨rfl, ?_, ?_, ?_, by decide, by decide, by decide, by decide, by decide,
    by decide, by decide, by decide, by decide⟩
  · intro s hstrip
    show isValidUrlChars s.toList = false
    rw [isValidUrlChars_eq, hstrip]
    rfl
  · intro s h
    replace h : isValidUrlChars s.toList = true := h
    rw [isValidUrlChars_eq] at h
    obtain ⟨hre, hrest⟩ := Bool.and_eq_true_iff.mp h
    obtain ⟨hscheme, hdom⟩ := Bool.and_eq_true_iff.mp hrest
    refine ⟨regexMatch_decomp _ hre, ?_, ?_⟩
    · rcases Bool.or_eq_true_iff.mp hscheme with h' | h'
      · exact Or.inl (by simpa using h')
      · exact Or.inr (by simpa using h')
    · obtain ⟨d, hd, hin⟩ := List.any_eq_true.mp hdom
      exact ⟨d, hd, hin⟩
  · intro pre hpre c r hc
    have hcn : (c == '\n') = false := not_nl_of_not_ws c hc
    show isValidUrlChars (pre ++ c :: r) = true
    rw [isValidUrlChars_eq]
    simp only [CI_PREFIXES, List.mem_map, List.mem_cons] at hpre
    obtain ⟨w, hw, hweq⟩ := hpre
    rcases hw with h8 | h8 | h8 | h8 | h8 | h8 | h8 | h8 | h8
    all_goals first
      | (subst h8; subst hweq;
         rw [pyStrip_append_stop _ c r (by intro x hx; cases hx; decide) hc];
         show ((!(c == '\n')) && (true && true)) = true;
         rw [hcn]; rfl)
      | (cases h8)

/-- Witness for C4: the positive family at a concrete prefix/suffix, and
the shape decomposition at a concrete accepted URL. -/
theorem claim_c4_url_validation_witness :
    is_valid_youtube_url (UrlInput.str (String.mk
      ("https://www.youtube.com/".toList ++ 'w' :: "atch?v=abc".toList))) = true
  ∧ ValidShape (pyStrip "https://youtu.be/x".toList) := by
  constructor
  · exact claim_c4_url_validation.2.2.2.1 ("https://www.youtube.com/".toList)
      (by decide) 'w' ("atch?v=abc".toList) (by decide)
  · exact claim_c4_url_validation.2.2.1 "https://youtu.be/x" (by decide)

/-! ## Claim about path normalization -/

/-- Appending one plain segment commutes with normalization. -/
theorem normSegs_append_plain (a : List String) (x : String)
    (hx1 : x ≠ ".") (hx2 : x ≠ "") (hx3 : x ≠ "..") :
    normSegs (a ++ [x]) = normSegs a ++ [x] := by
  unfold normSegs
  rw [List.foldl_append]
  simp [hx1, hx2, hx3]

/-- C8: `normalize_output_path` returns the filesystem untouched on every
input while producing an absolute path, and on `~/x` (a plain segment `x`)
the result is the user's home directory (normalized) extended with `x` —
in particular nothing is created. -/
theorem claim_c8_normalize_path (home cwd : List String) (fs : FS) (x : String)
    (hx1 : x ≠ ".") (hx2 : x ≠ "") (hx3 : x ≠ "..") :
    (∀ p : PyPath, (normalize_output_path home cwd fs p).1 = fs)
  ∧ (∀ p : PyPath, (normalize_output_path home cwd fs p).2.absolute = true)
  ∧ (normalize_output_path home cwd fs { absolute := false, segs := ["~", x] }).2
      = { absolute := true, segs := normSegs home ++ [x] } := by
  refine ⟨fun p => rfl, ?_, ?_⟩
  · intro p
    unfold normalize_output_path pyResolve
    cases hp : (expanduser home p).absolute <;> simp
  · unfold normalize_output_path expanduser
    rw [if_pos (by exact ⟨rfl, rfl⟩)]
    unfold pyResolve
    rw [show (["~", x] : List String).tail = [x] from rfl,
      normSegs_append_plain home x hx1 hx2 hx3]
    simp

/-- Witness for C8 at a concrete home, working directory and filesystem. -/
theorem claim_c8_normalize_path_witness :
    (normalize_output_path ["home", "user"] ["tmp"] []
        { absolute := false, segs := ["~", "x"] }).1 = []
  ∧ (normalize_output_path ["home", "user"] ["tmp"] []
        { absolute := false, segs := ["~", "x"] }).2
      = { absolute := true, segs := ["home", "user", "x"] } := by
  have h := claim_c8_normalize_path ["home", "user"] ["tmp"] [] "x"
    (by decide) (by decide) (by decide)
  exact ⟨h.1 { absolute := false, segs := ["~", "x"] }, by rw [h.2.2]; rfl⟩

/-! ## Claim about the options bundle -/

/-- C7: in audio mode the output template forces the `.wav` extension
(both WAV templates end in `.wav`), the format selector is the
"best audio" string, and the post-processing directives fix the audio to a
44100 Hz sample rate, 2 channels and 16-bit PCM; in video mode the format
selector is the "best video + best audio" string, the generic `%(ext)s`
templates are used, and no post-processors are attached. -/
theorem claim_c7_options_bundle (d : String) (p : Bool) :
    (build_opts d false p).format = "bestaudio/best"
  ∧ (build_opts d false p).outtmpl
      = pathJoin d (if p then OUTPUT_TEMPLATE_WAV else SINGLE_VIDEO_TEMPLATE_WAV)
  ∧ (∃ a, OUTPUT_TEMPLATE_WAV.toList = a ++ ".wav".toList)
  ∧ (∃ a, SINGLE_VIDEO_TEMPLATE_WAV.toList = a ++ ".wav".toList)
  ∧ (build_opts d false p).postprocessors
      = [{ key := "FFmpegExtractAudio", preferredcodec := "wav" }]
  ∧ (build_opts d false p).postprocessor_args
      = [("extractaudio+ffmpeg", ["-ar", "44100", "-ac", "2", "-acodec", "pcm_s16le"])]
  ∧ (build_opts d true p).format = "bestvideo+bestaudio/best"
  ∧ (build_opts d true p).outtmpl
      = pathJoin d (if p then OUTPUT_TEMPLATE else SINGLE_VIDEO_TEMPLATE)
  ∧ (∃ a, OUTPUT_TEMPLATE.toList = a ++ "%(ext)s".toList)
  ∧ (∃ a, SINGLE_VIDEO_TEMPLATE.toList = a ++ "%(ext)s".toList)
  ∧ (build_opts d true p).postprocessors = []
  ∧ (build_opts d true p).postprocessor_args = [] := by
  refine ⟨rfl, ?_, ⟨"%(playlist_title)s/%(title)s".toList, by decide⟩,
    ⟨"%(title)s".toList, by decide⟩, rfl, rfl, rfl, ?_,
    ⟨"%(playlist_title)s/%(title)s.".toList, by decide⟩,
    ⟨"%(title)s.".toList, by decide⟩, rfl, rfl⟩
  · cases p <;> rfl
  · cases p <;> rfl
